import Mathlib

/-!
Verification development for the adidas-crawling repository (src/main.go).

The program is a two-phase Selenium crawler.  We shallowly embed its pure
computational content:

* Go string helpers used by the crawler (`strings.Split`, `strings.Trim`,
  `strings.TrimSpace`, `strconv.Atoi`, `strconv.ParseFloat`) are translated
  into executable Lean functions.  Machine integers are modelled as `Int`
  with the 64-bit range check that `strconv.Atoi` performs; `float64`
  values are modelled as exact rationals (`ℚ`) — every numeric literal the
  claims exercise is exactly representable, and non-finite/hexadecimal
  float forms are not reachable from the scraping code paths.
* The rendered DOM exposed by a WebDriver session is modelled by `Page`:
  a map from selector strings to query results.  `none` models a driver
  error (`err != nil`); `some` carries the value.  Element handles carry
  their text, attributes and child-element lookups.
* `log.Fatalf` (process exit) and Go runtime panics (index out of range,
  nil-interface dereference) are the two ways extraction can abort; they
  are modelled by `Except Abort`.  Navigation, sleeps, modal clicks and the
  scroll script are session side effects with no data flow into the
  extracted record; the scroll loop itself is modelled separately over a
  synthetic sequence of measurements, exactly as the specification tests it.
-/

namespace AdidasCrawl

/-! ## Go string and number primitives -/

/-- Numeric value of a list of decimal digit characters (as read left to
right), the core of `strconv.Atoi` on an all-digit string. -/
def digitsToNat (ds : List Char) : Nat :=
  ds.foldl (fun a c => a * 10 + (c.toNat - 48)) 0

/-- The Go `strings.Split(s, "/")`-style splitter on a single separator
character, at the character-list level: `n` separators yield `n + 1`
segments, and the empty string yields `[[]]`. -/
def goSplitCh (sep : Char) : List Char → List (List Char)
  | [] => [[]]
  | c :: cs =>
    match goSplitCh sep cs with
    | [] => [[c]]
    | r :: rs => if c = sep then [] :: r :: rs else (c :: r) :: rs

/-- Embedding of `strings.Split` (single-character separator). -/
def goSplit (sep : Char) (s : String) : List String :=
  (goSplitCh sep s.data).map String.mk

/-- Cutset membership for `strings.Trim(s, " ")`-style trimming. -/
def trimChar (cut : Char) (l : List Char) : List Char :=
  ((l.dropWhile (· = cut)).reverse.dropWhile (· = cut)).reverse

/-- The Unicode white-space test used by `strings.TrimSpace`
(`unicode.IsSpace`). -/
def isGoSpace (c : Char) : Bool :=
  c = ' ' || c = '\t' || c = '\n' || c = '\x0b' || c = '\x0c' || c = '\r' ||
  c = '\u0085' || c = '\u00A0' || c = '\u1680' ||
  ('\u2000' ≤ c && c ≤ '\u200A') ||
  c = '\u2028' || c = '\u2029' || c = '\u202F' || c = '\u205F' || c = '\u3000'

/-- Embedding of `strings.TrimSpace`. -/
def trimSpace (s : String) : String :=
  String.mk (((s.data.dropWhile isGoSpace).reverse.dropWhile isGoSpace).reverse)

/-- Embedding of `strconv.Atoi` on a 64-bit platform: an optional sign
followed by at least one decimal digit, rejecting any other character and
any value outside `[-2^63, 2^63)` (Go reports `ErrRange` there, which every
call site treats as failure). -/
def atoi (s : String) : Option Int :=
  match s.data with
  | [] => none
  | c :: cs =>
    let (neg, ds) :=
      if c = '-' then (true, cs)
      else if c = '+' then (false, cs)
      else (false, c :: cs)
    if ds.isEmpty then none
    else if ds.all Char.isDigit then
      let n := digitsToNat ds
      if neg then
        if n ≤ 2 ^ 63 then some (-(n : Int)) else none
      else
        if n < 2 ^ 63 then some (n : Int) else none
    else none

/-- Exponent suffix of a float literal: optional sign then at least one
digit, consuming the whole remainder. -/
def parseExpPart (l : List Char) : Option Int :=
  match l with
  | [] => none
  | c :: cs =>
    let (neg, ds) :=
      if c = '-' then (true, cs)
      else if c = '+' then (false, cs)
      else (false, c :: cs)
    if ds.isEmpty then none
    else if ds.all Char.isDigit then
      let n := digitsToNat ds
      some (if neg then -(n : Int) else (n : Int))
    else none

/-- Scale a rational by a power of ten (the exponent of a float literal). -/
def scalePow10 (q : ℚ) (e : Int) : ℚ :=
  if 0 ≤ e then q * (10 : ℚ) ^ e.toNat else q / (10 : ℚ) ^ (-e).toNat

/-- Embedding of `strconv.ParseFloat` on the decimal forms the crawler can
meet: optional sign, integer digits and/or a fractional part, optional
decimal exponent.  Values are exact rationals; the binary rounding of
`float64` and its non-finite/hex literal forms are out of scope (no claim
exercises them). -/
def parseFloat (s : String) : Option ℚ :=
  match s.data with
  | [] => none
  | c :: cs =>
    let (neg, body) :=
      if c = '-' then (true, cs)
      else if c = '+' then (false, cs)
      else (false, c :: cs)
    let ip := body.takeWhile Char.isDigit
    let rest := body.dropWhile Char.isDigit
    let withSign := fun (q : ℚ) => if neg then -q else q
    match rest with
    | [] => if ip.isEmpty then none else some (withSign (digitsToNat ip))
    | '.' :: r2 =>
      let fp := r2.takeWhile Char.isDigit
      let rest2 := r2.dropWhile Char.isDigit
      if ip.isEmpty && fp.isEmpty then none
      else
        let mant : ℚ := (digitsToNat ip : ℚ) + (digitsToNat fp : ℚ) / (10 : ℚ) ^ fp.length
        match rest2 with
        | [] => some (withSign mant)
        | e :: es =>
          if e = 'e' || e = 'E' then
            match parseExpPart es with
            | some ex => some (withSign (scalePow10 mant ex))
            | none => none
          else none
    | e :: es =>
      if (e = 'e' || e = 'E') && !ip.isEmpty then
        match parseExpPart es with
        | some ex => some (withSign (scalePow10 (digitsToNat ip) ex))
        | none => none
      else none

/-! ## The rendered-page model -/

/-- A child element handle: the surface the crawler uses on elements found
within another element (`Text`, `GetAttribute`).  `none` models a driver
error. -/
structure DomLeaf where
  text : Option String
  attr : String → Option String

/-- A top-level element handle: text, attributes, and `FindElement`-within
(child lookup by selector string; `none` models `err != nil`, whose
element handle is then `nil`). -/
structure DomNode where
  text : Option String
  attr : String → Option String
  child : String → Option DomLeaf

/-- A rendered page: the result of every `FindElement` /`FindElements`
query the session can answer.  For `findAll`, `none` is a driver error
while `some []` is a successful query matching nothing (the Selenium
behavior for `FindElements`). -/
structure Page where
  findOne : String → Option DomNode
  findAll : String → Option (List DomNode)

/-- A leaf with only a text (used to build concrete test pages). -/
def textLeafNode (t : String) : DomNode :=
  { text := some t, attr := fun _ => none, child := fun _ => none }

/-- A fully empty page: every selector query succeeds matching nothing and
every single-element lookup reports not-found. -/
def emptyPage : Page :=
  { findOne := fun _ => none, findAll := fun _ => some [] }

/-- The two ways the Go process aborts during extraction: `log.Fatalf`
(`fatalErr`) and a runtime panic such as an out-of-range index or a method
call on a nil interface (`panicked`). -/
inductive Abort where
  | fatalErr
  | panicked
  deriving DecidableEq, Repr

/-! ## The record types (src/main.go, lines 19-86) -/

/-- Row written by phase-1 workers. -/
structure ProductURL where
  Category : String
  PageNo : Int
  URL : String
  deriving DecidableEq, Repr

structure ColorOption where
  Path : String
  Color : String
  deriving DecidableEq, Repr

structure ReviewSummary where
  Rating : ℚ
  NumberOfReviews : Int
  RecommendedRate : String
  Fit : String
  Length : String
  Quality : String
  Comfort : String
  deriving DecidableEq, Repr

structure Review where
  Rating : ℚ
  Title : String
  Description : String
  Date : String
  ReviewId : String
  deriving DecidableEq, Repr

structure CoordinatedProduct where
  Title : String
  Price : String
  Path : String
  ProductNumber : String
  ProductURL : String
  deriving DecidableEq, Repr

structure SpecialDescription where
  Title : String
  Description : String
  deriving DecidableEq, Repr

structure Media where
  Type' : String
  Path : String
  deriving DecidableEq, Repr

/-- One row of the size chart: the Go `map[string]string` holding a single
`rowKey → cellText` binding, modelled as an association list (a `nil` map
is the empty list). -/
abbrev SizeRow := List (String × String)

/-- The Go `map[string][]map[string]string`, modelled as an association
list in insertion order with in-place replacement on key collision. -/
abbrev SizeChartMap := List (String × List SizeRow)

structure Product where
  ProductURL : String
  Breadcrumbs : List String
  Category : String
  Title : String
  Price : String
  AvailableColors : List ColorOption
  AvailableSizes : List String
  Media : List Media
  CoordinatedProducts : List CoordinatedProduct
  DescriptionHeading : String
  DescriptionTitle : String
  Description : String
  Specifications : List String
  SpecialDescription : List SpecialDescription
  SizeChart : SizeChartMap
  SizeRemarks : List String
  ReviewSummary : ReviewSummary
  Reviews : List Review
  Tags : List String
  deriving DecidableEq, Repr

/-- The Go zero value of `Product` (`&Product{}` before any field is set). -/
def emptyProduct : Product :=
  { ProductURL := "", Breadcrumbs := [], Category := "", Title := ""
  , Price := "", AvailableColors := [], AvailableSizes := [], Media := []
  , CoordinatedProducts := [], DescriptionHeading := "", DescriptionTitle := ""
  , Description := "", Specifications := [], SpecialDescription := []
  , SizeChart := [], SizeRemarks := []
  , ReviewSummary := { Rating := 0, NumberOfReviews := 0, RecommendedRate := ""
                     , Fit := "", Length := "", Quality := "", Comfort := "" }
  , Reviews := [], Tags := [] }

/-- Go map assignment `m[k] = v`: replace the binding in place if the key
exists, otherwise add it. -/
def mapUpsert (m : SizeChartMap) (k : String) (v : List SizeRow) : SizeChartMap :=
  if m.any (fun p => p.1 = k) then
    m.map (fun p => if p.1 = k then (k, v) else p)
  else m ++ [(k, v)]

/-! ## URL helpers (src/main.go, lines 286-310) -/

/-- Whether the regular expression `page=(\d+)` matches at the head of the
suffix: the literal `page=` followed by at least one digit. -/
def pageMatchHere (l : List Char) : Bool :=
  decide (l.take 5 = "page=".data) &&
  (match (l.drop 5).head? with
   | some d => d.isDigit
   | none => false)

/-- Leftmost match of `page=(\d+)`: scan suffixes left to right and return
the greedy capture group (the maximal digit run after `page=`). -/
def findPageCapture : List Char → Option (List Char)
  | [] => none
  | c :: cs =>
    if pageMatchHere (c :: cs) then some ((c :: cs).drop 5 |>.takeWhile Char.isDigit)
    else findPageCapture cs

/-- Embedding of `extractPageNumber` (src/main.go, lines 286-300):
`regexp page=(\d+)` then `strconv.Atoi` of the capture, `-1` when the
pattern is absent or `Atoi` fails. -/
def extractPageNumber (url : String) : Int :=
  match findPageCapture url.data with
  | none => -1
  | some d =>
    match atoi (String.mk d) with
    | none => -1
    | some n => n

/-- Whether `category=([^&]+)` matches at the head of the suffix. -/
def categoryMatchHere (l : List Char) : Bool :=
  decide (l.take 9 = "category=".data) &&
  (match (l.drop 9).head? with
   | some d => !(d = '&')
   | none => false)

/-- Leftmost greedy capture of `category=([^&]+)`. -/
def findCategoryCapture : List Char → Option (List Char)
  | [] => none
  | c :: cs =>
    if categoryMatchHere (c :: cs) then
      some ((c :: cs).drop 9 |>.takeWhile (fun d => !(d = '&')))
    else findCategoryCapture cs

/-- Embedding of `extractCategory` (src/main.go, lines 302-310). -/
def extractCategory (url : String) : String :=
  match findCategoryCapture url.data with
  | none => ""
  | some d => String.mk d

/-! ## Pagination (src/main.go, lines 312-325 and 183-196) -/

/-- Embedding of `getPageCount`: the integer parsed from the trimmed text
of the `.pageTotal` element, defaulting to 1 when the element is absent,
its text cannot be read, or `Atoi` fails. -/
def getPageCount (page : Page) : Int :=
  match page.findOne ".pageTotal" with
  | none => 1
  | some el =>
    match el.text with
    | none => 1
    | some t =>
      match atoi (trimSpace t) with
      | none => 1
      | some n => n

/-- The page-task URLs main enqueues for one category
(`for i := 1; i <= pageCount; i++`, `fmt.Sprintf("%s&page=%d", category, i)`). -/
def pageTasks (category : String) (pageCount : Int) : List String :=
  (List.range pageCount.toNat).map (fun i => category ++ "&page=" ++ toString (i + 1))

/-! ## Scroll convergence (src/main.go, lines 327-355) -/

/-- One read-out of the three scroll metrics queried each iteration of
`scrollToBottom`. -/
structure ScrollMeasure where
  scrollTop : Int
  clientHeight : Int
  scrollHeight : Int
  deriving DecidableEq, Repr

/-- The loop's termination predicate:
`scrollTop + clientHeight >= scrollHeight`. -/
def scrollDone (m : ScrollMeasure) : Bool :=
  m.scrollHeight ≤ m.scrollTop + m.clientHeight

/-- Embedding of the `scrollToBottom` loop over a synthetic sequence of
measurements: iteration `i` scrolls, waits, reads `seq i` and breaks when
`scrollDone`.  The source loop has no bound, so the model is indexed by
fuel; `some k` means the loop returned on reading `seq k` (after `k`
complete non-breaking iterations), `none` that it was still running when
the fuel ran out. -/
def scrollToBottomRun (seq : Nat → ScrollMeasure) : Nat → Nat → Option Nat
  | _, 0 => none
  | i, fuel + 1 =>
    if scrollDone (seq i) then some i else scrollToBottomRun seq (i + 1) fuel

/-! ## Field extraction pipeline (src/main.go, lines 390-853) -/

def baseURL : String := "https://shop.adidas.jp"

/-- Map a fallible per-element extraction over a list, propagating the
first abort (a `log.Fatalf` or panic inside a Go `for` loop kills the
whole process). -/
def mapOrAbort (f : α → Except Abort β) : List α → Except Abort (List β)
  | [] => .ok []
  | a :: as =>
    match f a with
    | .error e => .error e
    | .ok b =>
      match mapOrAbort f as with
      | .error e => .error e
      | .ok bs => .ok (b :: bs)

/-- The shared shape of the single-element text sections (`category`,
`title`, `price`, the description headings): find one element, read its
text, and store it; leave the record unchanged on not-found or a text
error. -/
def textSection (page : Page) (sel : String) (store : Product → String → Product)
    (p : Product) : Product :=
  match page.findOne sel with
  | none => p
  | some el =>
    match el.text with
    | none => p
    | some t => store p t

/-- Breadcrumbs (lines 426-438): keep non-empty link texts, discarding
positional indices 0 and 1. -/
def breadcrumbSection (page : Page) (p : Product) : Product :=
  match page.findAll ".breadcrumbListItem a" with
  | none => p
  | some elems =>
    { p with Breadcrumbs :=
        elems.enum.filterMap (fun ke =>
          match ke.2.text with
          | none => none
          | some t =>
            if t ≠ "" ∧ ke.1 ≠ 0 ∧ ke.1 ≠ 1 then some t else none) }

def categorySection (page : Page) (p : Product) : Product :=
  textSection page ".categoryName" (fun q t => { q with Category := t }) p

def titleSection (page : Page) (p : Product) : Product :=
  textSection page ".itemTitle" (fun q t => { q with Title := t }) p

def priceSection (page : Page) (p : Product) : Product :=
  textSection page ".price-value" (fun q t => { q with Price := t }) p

/-- One color swatch (lines 476-491): the `img` child's `src` and `alt`
must both be non-empty to emit an entry; attribute read errors are
discarded (`_ :=`), leaving the empty string. -/
def colorOf (e : DomNode) : Option ColorOption :=
  match e.child "img" with
  | none => none
  | some img =>
    let imageSrc := (img.attr "src").getD ""
    let color := (img.attr "alt").getD ""
    if imageSrc ≠ "" ∧ color ≠ "" then
      some { Path := baseURL ++ imageSrc, Color := color }
    else none

/-- Colors (lines 471-492): the `FindElements` error here is
`log.Fatalf`. -/
def colorSection (page : Page) (p : Product) : Except Abort Product :=
  match page.findAll ".selectable-image-group .selectableImageListItem" with
  | none => .error .fatalErr
  | some elems => .ok { p with AvailableColors := elems.filterMap colorOf }

/-- Available sizes (lines 495-506): non-empty button texts; the
`FindElements` error is `log.Fatalf`. -/
def sizeSection (page : Page) (p : Product) : Except Abort Product :=
  match page.findAll ".sizeSelectorList .sizeSelectorListItemButton" with
  | none => .error .fatalErr
  | some elems =>
    .ok { p with AvailableSizes :=
      elems.filterMap (fun e =>
        match e.text with
        | none => none
        | some t => if t ≠ "" then some t else none) }

/-- Collect `src` attributes into media entries; a `GetAttribute` error is
`log.Fatalf` (lines 514-523 and 530-539). -/
def mediaSrcs (typ : String) : List DomNode → Except Abort (List Media)
  | [] => .ok []
  | e :: es =>
    match e.attr "src" with
    | none => .error .fatalErr
    | some s =>
      match mediaSrcs typ es with
      | .error a => .error a
      | .ok ms => .ok ({ Type' := typ, Path := baseURL ++ s } :: ms)

/-- Images (lines 509-523): `FindElements` and `GetAttribute` errors are
both `log.Fatalf`. -/
def imageSection (page : Page) (p : Product) : Except Abort Product :=
  match page.findAll ".article_image_wrapper img.test-img" with
  | none => .error .fatalErr
  | some elems =>
    match mediaSrcs "image" elems with
    | .error a => .error a
    | .ok ms => .ok { p with Media := p.Media ++ ms }

/-- Videos (lines 525-539), appended after the images. -/
def videoSection (page : Page) (p : Product) : Except Abort Product :=
  match page.findAll ".pdp-article-video-wrap video" with
  | none => .error .fatalErr
  | some elems =>
    match mediaSrcs "video" elems with
    | .error a => .error a
    | .ok ms => .ok { p with Media := p.Media ++ ms }

/-- One coordinated-product card (lines 545-584).  When the
`.coordinate_image img` child lookup fails, the Go code still calls
`GetAttribute("src")` on the nil element handle at line 567 — a
nil-interface dereference, i.e. a panic (the title/price reads before it
have no observable effect once the process dies). -/
def coordOf (card : DomNode) : Except Abort CoordinatedProduct :=
  match card.child ".coordinate_image img" with
  | none => .error .panicked
  | some img =>
    let title := (img.attr "alt").getD ""
    let price :=
      match card.child ".price-value.test-price-value" with
      | none => ""
      | some pe => (pe.text).getD ""
    let srcRes := img.attr "src"
    let imageURL := srcRes.getD ""
    let path := match srcRes with | some s => baseURL ++ s | none => ""
    let urlParts := goSplit '/' imageURL
    let productNumber := if urlParts.length > 3 then urlParts.getD 3 "" else ""
    .ok { Title := title, Price := price, Path := path
        , ProductNumber := productNumber
        , ProductURL := "https://shop.adidas.jp/products/" ++ productNumber }

/-- Coordinated products (lines 542-586): a `FindElements` error skips the
whole block (`if err == nil`). -/
def coordSection (page : Page) (p : Product) : Except Abort Product :=
  match page.findAll ".coordinateItems .carouselListitem" with
  | none => .ok p
  | some cards =>
    match mapOrAbort coordOf cards with
    | .error a => .error a
    | .ok cs => .ok { p with CoordinatedProducts := cs }

def descriptionBodySel : String :=
  ".description.clearfix.test-descriptionBlock .description_part.details.test-itemComment-descriptionPart .commentItem-mainText.test-commentItem-mainText"

/-- Description block (lines 589-621): three single-text fields plus the
specification items (whose texts are appended even when empty). -/
def descriptionSection (page : Page) (p : Product) : Product :=
  let p := textSection page ".heading.itemName.test-commentItem-topHeading"
    (fun q t => { q with DescriptionHeading := t }) p
  let p := textSection page ".heading.itemFeature.test-commentItem-subheading"
    (fun q t => { q with DescriptionTitle := t }) p
  let p := textSection page descriptionBodySel
    (fun q t => { q with Description := t }) p
  match page.findAll ".articleFeatures.description_part .articleFeaturesItem" with
  | none => p
  | some elems => { p with Specifications := elems.filterMap (fun e => e.text) }

/-- Whether one `.contents .content` element yields a new
`{title, description}` capture (lines 630-641): both child lookups must
succeed and both the title text and the image alt (with read errors
discarded to `""`) must be non-empty. -/
def captureOf (content : DomNode) : Option SpecialDescription :=
  match content.child ".tecTextTitle", content.child "div.item_part.illustration img" with
  | some titleEl, some imgAltEl =>
    let title := (titleEl.text).getD ""
    let imgAlt := (imgAltEl.attr "alt").getD ""
    if title ≠ "" ∧ imgAlt ≠ "" then
      some { Title := title, Description := imgAlt }
    else none
  | _, _ => none

/-- The special-description loop (lines 627-643): the entry variable is
declared once outside the loop, so an element without a fresh capture
appends the value left by the previous iterations. -/
def specialDescLoop (cur : SpecialDescription) : List DomNode → List SpecialDescription
  | [] => []
  | c :: cs =>
    let cur2 := (captureOf c).getD cur
    cur2 :: specialDescLoop cur2 cs

/-- Special descriptions (lines 625-644). -/
def specialDescSection (page : Page) (p : Product) : Product :=
  match page.findAll ".contents .content" with
  | none => p
  | some elems =>
    { p with SpecialDescription :=
        specialDescLoop { Title := "", Description := "" } elems }

/-! ## Size chart (src/main.go, lines 648-705) -/

def headerSel : String := ".sizeChartTable thead .sizeChartTHeaderCell"

/-- The per-row cell selector built with `fmt.Sprintf` at line 681; the
size keys at line 664 use the same shape with index 1. -/
def rowSel (n : Nat) : String :=
  ".sizeChartTable tbody .sizeChartTRow:nth-of-type(" ++ toString n ++ ") .sizeChartTCell span"

/-- Read the texts of a list of elements where any `Text` error is
`log.Fatalf` (the header and size-key loops, lines 653-661 and 669-675). -/
def collectTextsFatal : List DomNode → Except Abort (List String)
  | [] => .ok []
  | e :: es =>
    match e.text with
    | none => .error .fatalErr
    | some t =>
      match collectTextsFatal es with
      | .error a => .error a
      | .ok ts => .ok (t :: ts)

/-- The inner cell loop for one column (lines 685-691): write
`{sizeKeys[j]: text}` into slot `j` of the pre-allocated row slice.  A
`Text` error is `log.Fatalf`; a cell index beyond `len(sizeKeys)` is an
out-of-range panic. -/
def fillColumn (sizeKeys : List String) :
    List SizeRow → Nat → List DomNode → Except Abort (List SizeRow)
  | arr, _, [] => .ok arr
  | arr, j, e :: es =>
    match e.text with
    | none => .error .fatalErr
    | some t =>
      match sizeKeys[j]? with
      | none => .error .panicked
      | some k => fillColumn sizeKeys (arr.set j [(k, t)]) (j + 1) es

/-- The per-header column loop (lines 679-692): header `i` reads the cells
of table row `i + 2` and stores the zipped column under its name. -/
def buildSizeChart (page : Page) (sizeKeys : List String) :
    Nat → List String → SizeChartMap → Except Abort SizeChartMap
  | _, [], m => .ok m
  | i, h :: hs, m =>
    match page.findAll (rowSel (i + 2)) with
    | none => .error .fatalErr
    | some rows =>
      match fillColumn sizeKeys (List.replicate sizeKeys.length []) 0 rows with
      | .error a => .error a
      | .ok col => buildSizeChart page sizeKeys (i + 1) hs (mapUpsert m h col)

/-- Size-chart assembly (lines 648-694): headers are the non-empty header
cell texts, size keys are all texts of the first body row, and every
lookup failure in this section is hard (fatal), unlike the soft sections. -/
def sizeChartSection (page : Page) (p : Product) : Except Abort Product :=
  match page.findAll headerSel with
  | none => .error .fatalErr
  | some headerElems =>
    match collectTextsFatal headerElems with
    | .error a => .error a
    | .ok headerTexts =>
      match page.findAll (rowSel 1) with
      | none => .error .fatalErr
      | some keyElems =>
        match collectTextsFatal keyElems with
        | .error a => .error a
        | .ok sizeKeys =>
          match buildSizeChart page sizeKeys 0 (headerTexts.filter (fun t => t ≠ "")) [] with
          | .error a => .error a
          | .ok chart => .ok { p with SizeChart := chart }


/-- Size remarks (lines 696-704): non-empty remark texts, soft failure. -/
def sizeRemarkSection (page : Page) (p : Product) : Product :=
  match page.findAll ".remarkList.test-remarkList .sizeDescriptionRemark" with
  | none => p
  | some elems =>
    { p with SizeRemarks :=
        elems.filterMap (fun e =>
          match e.text with
          | none => none
          | some t => if t ≠ "" then some t else none) }

/-! ## Review summary (src/main.go, lines 707-768) -/

/-- Review summary: the overall rating (float parse, default 0.0), the
review count (`Atoi`, default 0), the recommendation rate (text, `"0.00%"`
only on a text-read error, `""` when absent), and the four secondary
ratings assigned positionally by index 0-3 from the `title` attributes. -/
def reviewSummarySection (page : Page) (p : Product) : Product :=
  let rating : ℚ :=
    match page.findOne ".BVRRRating.BVRRRatingNormal.BVRRRatingOverall .BVRRRatingNormalOutOf .BVRRRatingNumber" with
    | none => 0
    | some el =>
      match el.text with
      | none => 0
      | some t => (parseFloat t).getD 0
  let numberOfReviews : Int :=
    match page.findOne ".BVRRQuickTakeCustomWrapper .BVRRBuyAgainTotal" with
    | none => 0
    | some el =>
      match el.text with
      | none => 0
      | some t => (atoi t).getD 0
  let recommendedRate : String :=
    match page.findOne ".BVRRQuickTakeCustomWrapper .BVRRBuyAgainPercentage" with
    | none => ""
    | some el =>
      match el.text with
      | none => "0.00%"
      | some t => t
  let summaryElems := (page.findAll ".BVRRSecondaryRatingsContainer .BVRRRatingRadioImage img").getD []
  let titleAt := fun (i : Nat) =>
    match summaryElems[i]? with
    | none => ""
    | some e => (e.attr "title").getD ""
  { p with ReviewSummary :=
      { Rating := rating, NumberOfReviews := numberOfReviews
      , RecommendedRate := recommendedRate
      , Fit := titleAt 0, Length := titleAt 1
      , Quality := titleAt 2, Comfort := titleAt 3 } }

/-! ## Reviews (src/main.go, lines 771-837) -/

def reviewRatingImgSel : String := ".BVRRReviewDisplayStyle5Header .BVRRRatingNormalImage img"

/-- The per-review rating (lines 777-789): split the `title` attribute on
`/` unconditionally, and when the attribute read succeeded with a
non-empty value, parse `ratingText[1]` (the segment after the first
slash, trimmed of spaces).  A non-empty title with no `/` makes
`ratingText[1]` an out-of-range index: a panic. -/
def reviewRatingOf (rev : DomNode) : Except Abort ℚ :=
  match rev.child reviewRatingImgSel with
  | none => .ok 0
  | some el =>
    match el.attr "title" with
    | none => .ok 0
    | some ratingValueText =>
      if ratingValueText = "" then .ok 0
      else
        match (goSplitCh '/' ratingValueText.data)[1]? with
        | none => .error .panicked
        | some seg => .ok ((parseFloat (String.mk (trimChar ' ' seg))).getD 0)

/-- A child's text where every miss (element not found, text error, empty
text) leaves the empty string — the date/title/body/nickname sub-field
pattern of the review loop. -/
def childTextOrEmpty (rev : DomNode) (sel : String) : String :=
  match rev.child sel with
  | none => ""
  | some el =>
    match el.text with
    | none => ""
    | some t => if t ≠ "" then t else ""

/-- The date sub-field reads the `content` attribute of a `meta` child. -/
def childAttrOrEmpty (rev : DomNode) (sel attrName : String) : String :=
  match rev.child sel with
  | none => ""
  | some el =>
    match el.attr attrName with
    | none => ""
    | some t => if t ≠ "" then t else ""

/-- One review block (lines 773-835). -/
def reviewOf (rev : DomNode) : Except Abort Review :=
  match reviewRatingOf rev with
  | .error a => .error a
  | .ok rating =>
    .ok { Rating := rating
        , Date := childAttrOrEmpty rev ".BVRRReviewDateContainer meta" "content"
        , Title := childTextOrEmpty rev ".BVRRReviewTitleContainer .BVRRReviewTitle"
        , Description := childTextOrEmpty rev ".BVRRReviewTextContainer .BVRRReviewText"
        , ReviewId := childTextOrEmpty rev ".BVRRUserNicknameContainer .BVRRUserNickname .BVRRNickname" }

/-- Reviews (lines 771-837): a `FindElements` error skips the block. -/
def reviewSection (page : Page) (p : Product) : Except Abort Product :=
  match page.findAll ".BVRRDisplayContent .BVRRDisplayContentBody .BVRRContentReview" with
  | none => .ok p
  | some revs =>
    match mapOrAbort reviewOf revs with
    | .error a => .error a
    | .ok rs => .ok { p with Reviews := rs }

/-- Tags (lines 841-849): non-empty anchor texts. -/
def tagSection (page : Page) (p : Product) : Product :=
  match page.findAll ".itemTagsPosition a" with
  | none => p
  | some elems =>
    { p with Tags :=
        elems.filterMap (fun e =>
          match e.text with
          | none => none
          | some t => if t ≠ "" then some t else none) }

/-- Embedding of `scrapeProduct` (lines 390-853).  `wd.Get`, the sleeps,
the `isExpand` script, `closeModals` and `scrollToBottom` are session side
effects with no data flow into the record; the DOM they leave behind is
what `page` models.  The result is the returned `*Product` (always
non-nil in the source), or the abort that killed the process. -/
def scrapeProduct (page : Page) (url : String) : Except Abort Product := do
  let p := { emptyProduct with ProductURL := url }
  let p := breadcrumbSection page p
  let p := categorySection page p
  let p := titleSection page p
  let p := priceSection page p
  let p ← colorSection page p
  let p ← sizeSection page p
  let p ← imageSection page p
  let p ← videoSection page p
  let p ← coordSection page p
  let p := descriptionSection page p
  let p := specialDescSection page p
  let p ← sizeChartSection page p
  let p := sizeRemarkSection page p
  let p := reviewSummarySection page p
  let p ← reviewSection page p
  let p := tagSection page p
  pure p

/-! ## Worker pools (src/main.go, lines 240-284 and 370-388) -/

/-- A long-lived rendering session: the page each navigation yields
(`none` models a `wd.Get` error), and the DOM left in the session when a
navigation failed (`scrapeProduct` logs the `Get` error and scrapes
whatever the session still shows). -/
structure RenderSession where
  navGet : String → Option Page
  domAfterFailedGet : String → Page

/-- Product links harvested from one listing page (lines 248-282):
`FindElements` errors and missing page number/category skip the page,
and empty or unreadable `href` attributes skip the link. -/
def urlsFromPage (page : Page) (url : String) : List ProductURL :=
  match page.findAll ".articleDisplayCard-children a.image_link" with
  | none => []
  | some elems =>
    let pageNo := extractPageNumber url
    let category := extractCategory url
    if pageNo = -1 ∨ category = "" then []
    else
      elems.filterMap (fun e =>
        match e.attr "href" with
        | none => none
        | some href =>
          if href = "" then none
          else some { Category := category, PageNo := pageNo, URL := baseURL ++ href })

/-- Embedding of the phase-1 worker `processURLs` (lines 240-284): a
failed `selenium.NewRemote` at startup is `log.Fatalf` — the whole process
dies; otherwise the worker drains its tasks, collecting the rows it
inserts. -/
def processURLs (sess : Option RenderSession) (tasks : List String) :
    Except Abort (List ProductURL) :=
  match sess with
  | none => .error .fatalErr
  | some s =>
    .ok (tasks.flatMap (fun url =>
      match s.navGet url with
      | none => []
      | some page => urlsFromPage page url))

/-- Embedding of the phase-2 worker `processProduct` (lines 370-388): a
failed `selenium.NewRemote` is only logged and the worker returns (no rows
inserted); otherwise each task is scraped, and an abort inside
`scrapeProduct` still kills the process. -/
def processProduct (sess : Option RenderSession) (tasks : List String) :
    Except Abort (List Product) :=
  match sess with
  | none => .ok []
  | some s =>
    mapOrAbort (fun url =>
      let page :=
        match s.navGet url with
        | some pg => pg
        | none => s.domAfterFailedGet url
      scrapeProduct page url) tasks

/-- A pool run: the process survives only if no worker aborted, and then
delivers every worker's insertions. -/
def runPool (outcomes : List (Except Abort α)) : Except Abort (List α) :=
  mapOrAbort (fun o => o) outcomes

/-- The chart the specification predicts for a run of size-chart assembly:
header `i` (counting from the loop start) is bound to the size keys zipped
with its column's cell texts, one singleton mapping per row. -/
def chartOf (sizeKeys : List String) (colCells : Nat → List String) :
    Nat → List String → SizeChartMap
  | _, [] => []
  | i, h :: hs =>
    (h, List.zipWith (fun k c => [(k, c)]) sizeKeys (colCells i))
      :: chartOf sizeKeys colCells (i + 1) hs

/-! ## Concrete fixtures (small synthetic pages and elements) -/

/-- A page whose `.pageTotal` element reads `" 3 "`. -/
def fxPageTotal : Page :=
  { findOne := fun s => if s = ".pageTotal" then some (textLeafNode " 3 ") else none
  , findAll := fun _ => some [] }

/-- An image leaf with a four-segment `src` path. -/
def fxCoordImg : DomLeaf :=
  { text := none
  , attr := fun a => if a = "src" then some "/a/b/c/d" else none }

/-- A coordinated-product card whose image child is `fxCoordImg`. -/
def fxCoordCard : DomNode :=
  { text := none, attr := fun _ => none
  , child := fun sel => if sel = ".coordinate_image img" then some fxCoordImg else none }

/-- A page with a single coordinated-product card. -/
def fxCoordPage : Page :=
  { findOne := fun _ => none
  , findAll := fun s =>
      if s = ".coordinateItems .carouselListitem" then some [fxCoordCard] else some [] }

/-- A rating image leaf whose title is the well-formed `"4.5/5"`. -/
def fxRatingImg : DomLeaf :=
  { text := none, attr := fun a => if a = "title" then some "4.5/5" else none }

/-- A review block carrying only the `"4.5/5"` rating image. -/
def fxRatedReview : DomNode :=
  { text := none, attr := fun _ => none
  , child := fun sel => if sel = reviewRatingImgSel then some fxRatingImg else none }

/-- A review block whose rating image title is `"foo"`: non-empty and
containing no slash. -/
def fxNoSlashReview : DomNode :=
  { text := none, attr := fun _ => none
  , child := fun sel =>
      if sel = reviewRatingImgSel then
        some { text := none, attr := fun a => if a = "title" then some "foo" else none }
      else none }

/-- A review block none of whose sub-elements exist. -/
def fxPlainReview : DomNode :=
  { text := none, attr := fun _ => none, child := fun _ => none }

/-- An otherwise empty product page whose single review has the no-slash
rating title. -/
def fxNoSlashPage : Page :=
  { findOne := fun _ => none
  , findAll := fun s =>
      if s = ".BVRRDisplayContent .BVRRDisplayContentBody .BVRRContentReview" then
        some [fxNoSlashReview]
      else some [] }

/-- A `.content` element that captures `{T, D}`. -/
def fxContentGood : DomNode :=
  { text := none, attr := fun _ => none
  , child := fun sel =>
      if sel = ".tecTextTitle" then some { text := some "T", attr := fun _ => none }
      else if sel = "div.item_part.illustration img" then
        some { text := none, attr := fun a => if a = "alt" then some "D" else none }
      else none }

/-- A `.content` element with no sub-elements at all. -/
def fxContentBad : DomNode :=
  { text := none, attr := fun _ => none, child := fun _ => none }

/-- A page with one capturing and one failing `.content` element. -/
def fxContentPage : Page :=
  { findOne := fun _ => none
  , findAll := fun s =>
      if s = ".contents .content" then some [fxContentGood, fxContentBad] else some [] }

/-- A size-chart page with two distinct headers `A`, `B`, two size keys and
two cells per column. -/
def fxChartPage : Page :=
  { findOne := fun _ => none
  , findAll := fun s =>
      if s = headerSel then some [textLeafNode "A", textLeafNode "B"]
      else if s = rowSel 1 then some [textLeafNode "k1", textLeafNode "k2"]
      else if s = rowSel 2 then some [textLeafNode "a1", textLeafNode "a2"]
      else if s = rowSel 3 then some [textLeafNode "b1", textLeafNode "b2"]
      else some [] }

/-- A size-chart page whose two non-empty headers carry the same text
`A`, with one size key and one cell in each of the two table rows. -/
def fxChartDupPage : Page :=
  { findOne := fun _ => none
  , findAll := fun s =>
      if s = headerSel then some [textLeafNode "A", textLeafNode "A"]
      else if s = rowSel 1 then some [textLeafNode "k"]
      else if s = rowSel 2 then some [textLeafNode "c0"]
      else if s = rowSel 3 then some [textLeafNode "c1"]
      else some [] }

/-- A healthy session: every navigation yields the empty page. -/
def fxSession : RenderSession :=
  { navGet := fun _ => some emptyPage, domAfterFailedGet := fun _ => emptyPage }

/-! ## Theorems -/

/-- The loop returns at the first satisfying measurement, wherever the scan
starts. -/
theorem scrollToBottomRun_reaches (seq : Nat → ScrollMeasure) :
    ∀ (fuel i k : Nat), i ≤ k → k < i + fuel →
      (∀ j, i ≤ j → j < k → scrollDone (seq j) = false) →
      scrollDone (seq k) = true →
      scrollToBottomRun seq i fuel = some k := by
  intro fuel
  induction fuel with
  | zero => intro i k h1 h2 _ _; omega
  | succ n ih =>
    intro i k h1 h2 hlt hk
    by_cases hi : i = k
    · subst hi
      simp [scrollToBottomRun, hk]
    · have hne : scrollDone (seq i) = false := hlt i le_rfl (by omega)
      simp only [scrollToBottomRun, hne, Bool.false_eq_true, if_false]
      exact ih (i + 1) k (by omega) (by omega) (fun j hj1 hj2 => hlt j (by omega) hj2) hk

/-- With no satisfying measurement the loop consumes any amount of fuel
without returning. -/
theorem scrollToBottomRun_diverges (seq : Nat → ScrollMeasure)
    (h : ∀ j, scrollDone (seq j) = false) :
    ∀ (fuel i : Nat), scrollToBottomRun seq i fuel = none := by
  intro fuel
  induction fuel with
  | zero => intro i; rfl
  | succ n ih =>
    intro i
    simp [scrollToBottomRun, h i, ih]

/-- C5: `scrollToBottom` returns exactly at the first satisfying
measurement.  If every `seq j` with `j < k` fails the predicate
`scrollTop + clientHeight ≥ scrollHeight` and `seq k` satisfies it, the
loop runs `k` complete (non-breaking) iterations and returns during the
read of `seq k` — for any fuel large enough to reach it; with no
satisfying triple the loop never returns (no fuel suffices). -/
theorem scroll_terminates_at_first_convergence :
    (∀ (seq : Nat → ScrollMeasure) (k fuel : Nat),
        (∀ j, j < k → scrollDone (seq j) = false) →
        scrollDone (seq k) = true →
        k < fuel →
        scrollToBottomRun seq 0 fuel = some k) ∧
    (∀ (seq : Nat → ScrollMeasure) (fuel : Nat),
        (∀ j, scrollDone (seq j) = false) →
        scrollToBottomRun seq 0 fuel = none) :=
  ⟨fun seq k fuel hbefore hk hfuel =>
      scrollToBottomRun_reaches seq fuel 0 k (Nat.zero_le k) (by omega)
        (fun j _ hj => hbefore j hj) hk,
   fun seq fuel h => scrollToBottomRun_diverges seq h fuel 0⟩

/-- Witness for C5 at a concrete synthetic sequence: two non-satisfying
measurements then a satisfying one give exactly two non-breaking
iterations; an all-failing sequence exhausts any fuel. -/
theorem scroll_terminates_at_first_convergence_witness :
    scrollToBottomRun
        (fun n => if n < 2 then ⟨0, 0, 1⟩ else ⟨2, 3, 4⟩) 0 10 = some 2 ∧
    scrollToBottomRun (fun _ => ⟨0, 0, 1⟩) 0 5 = none :=
  ⟨scroll_terminates_at_first_convergence.1
      (fun n => if n < 2 then ⟨0, 0, 1⟩ else ⟨2, 3, 4⟩) 2 10
      (by decide) (by decide) (by decide),
   scroll_terminates_at_first_convergence.2 (fun _ => ⟨0, 0, 1⟩) 5 (fun _ => rfl)⟩

/-- `strconv.Atoi` on an all-digit string parses it, subject only to the
64-bit range check. -/
theorem atoi_all_digits (d : List Char) (hne : d ≠ []) (hd : ∀ c ∈ d, c.isDigit = true) :
    atoi (String.mk d) =
      if digitsToNat d < 2 ^ 63 then some (digitsToNat d : Int) else none := by
  obtain ⟨c, cs, rfl⟩ := List.exists_cons_of_ne_nil hne
  have hc : c.isDigit = true := hd c (by simp)
  have hc1 : ¬ c = '-' := by rintro rfl; simp [Char.isDigit] at hc
  have hc2 : ¬ c = '+' := by rintro rfl; simp [Char.isDigit] at hc
  have hall : (c :: cs).all Char.isDigit = true := List.all_eq_true.mpr hd
  simp [atoi, hc1, hc2, hall]

/-- `takeWhile` returns exactly the block of satisfying elements when the
remainder opens with a failing one. -/
theorem takeWhile_block (P : Char → Bool) :
    ∀ (d r : List Char), (∀ c ∈ d, P c = true) → (∀ c ∈ r.take 1, P c = false) →
      (d ++ r).takeWhile P = d := by
  intro d
  induction d with
  | nil =>
    intro r _ hr
    cases r with
    | nil => rfl
    | cons c r' =>
      have := hr c (by simp)
      simp [List.takeWhile_cons, this]
  | cons c d' ih =>
    intro r hd hr
    have := hd c (by simp)
    simp only [List.cons_append, List.takeWhile_cons, this, if_true]
    rw [ih r (fun x hx => hd x (by simp [hx])) hr]

/-- Scanning past a region with no match leaves the search unchanged. -/
theorem findPageCapture_append (p rest : List Char)
    (hp : ∀ j, j < p.length → pageMatchHere ((p ++ rest).drop j) = false) :
    findPageCapture (p ++ rest) = findPageCapture rest := by
  induction p with
  | nil => rfl
  | cons c p' ih =>
    have h0 : pageMatchHere (c :: (p' ++ rest)) = false := by
      have := hp 0 (by simp)
      simpa using this
    show findPageCapture (c :: (p' ++ rest)) = findPageCapture rest
    rw [findPageCapture, if_neg (by simp [h0])]
    exact ih (fun j hj => by
      have := hp (j + 1) (by simpa using Nat.succ_lt_succ hj)
      simpa using this)

/-- At a match the capture is the maximal digit run after `page=`. -/
theorem findPageCapture_here (d r : List Char) (hd : d ≠ [])
    (hdig : ∀ c ∈ d, c.isDigit = true) (hr : ∀ c ∈ r.take 1, c.isDigit = false) :
    findPageCapture ("page=".data ++ d ++ r) = some d := by
  obtain ⟨c, cs, rfl⟩ := List.exists_cons_of_ne_nil hd
  have hmatch : pageMatchHere ("page=".data ++ (c :: cs) ++ r) = true := by
    simp [pageMatchHere, hdig c (by simp)]
  show findPageCapture ('p' :: 'a' :: 'g' :: 'e' :: '=' :: ((c :: cs) ++ r)) = _
  rw [findPageCapture]
  simp only [show ('p' :: 'a' :: 'g' :: 'e' :: '=' :: ((c :: cs) ++ r))
      = "page=".data ++ (c :: cs) ++ r from rfl, hmatch, if_true]
  have : ("page=".data ++ (c :: cs) ++ r).drop 5 = (c :: cs) ++ r := by
    simp
  rw [this, takeWhile_block Char.isDigit (c :: cs) r hdig hr]

/-- With no match anywhere within the list the search fails. -/
theorem findPageCapture_none :
    ∀ l : List Char, (∀ j, j < l.length → pageMatchHere (l.drop j) = false) →
      findPageCapture l = none := by
  intro l
  induction l with
  | nil => intro _; rfl
  | cons c cs ih =>
    intro h
    have h0 : pageMatchHere (c :: cs) = false := by simpa using h 0 (by simp)
    simp only [findPageCapture, h0, Bool.false_eq_true, if_false]
    exact ih (fun j hj => by
      have := h (j + 1) (by simpa using Nat.succ_lt_succ hj)
      simpa using this)

/-- C6 (amended for the `Atoi` range check): if the URL decomposes as
`p ++ "page=" ++ d ++ r` with `d` a non-empty maximal digit run and no
match of `page=` followed by a digit anywhere inside `p`, then
`extractPageNumber` returns the number `d` denotes when it fits in a
signed 64-bit int, and `-1` when `Atoi` overflows; with no match anywhere
it returns `-1`.  The function is total — it never panics. -/
theorem extract_page_number_spec :
    (∀ (s : String) (p d r : List Char),
        s.data = p ++ "page=".data ++ d ++ r →
        d ≠ [] →
        (∀ c ∈ d, c.isDigit = true) →
        (∀ c ∈ r.take 1, c.isDigit = false) →
        (∀ j, j < p.length → pageMatchHere (s.data.drop j) = false) →
        extractPageNumber s =
          if digitsToNat d < 2 ^ 63 then (digitsToNat d : Int) else -1) ∧
    (∀ s : String, (∀ j, j < s.data.length → pageMatchHere (s.data.drop j) = false) →
        extractPageNumber s = -1) := by
  constructor
  · intro s p d r hs hd hdig hr hp
    have hfind : findPageCapture s.data = some d := by
      rw [hs, show p ++ "page=".data ++ d ++ r = p ++ ("page=".data ++ d ++ r) by simp,
        findPageCapture_append]
      · rw [show "page=".data ++ d ++ r = "page=".data ++ d ++ r from rfl]
        exact findPageCapture_here d r hd hdig hr
      · intro j hj
        have := hp j hj
        rw [hs] at this
        simpa using this
    simp only [extractPageNumber, hfind]
    rw [atoi_all_digits d hd hdig]
    split <;> rename_i h <;> split at h <;> simp_all
    rw [if_neg (by omega)]
  · intro s h
    rw [extractPageNumber, findPageCapture_none s.data h]

/-- Witness for C6 at concrete URLs: a URL with `page=12` yields 12, one
with no `page=N` yields the sentinel. -/
theorem extract_page_number_spec_witness :
    extractPageNumber "a&page=12b" = 12 ∧ extractPageNumber "abc" = -1 := by
  constructor
  · have h := extract_page_number_spec.1 "a&page=12b" ['a', '&'] ['1', '2'] ['b']
      (by decide) (by decide) (by decide) (by decide) (by decide)
    simpa using h
  · exact extract_page_number_spec.2 "abc" (by decide)

/-- Counterexample to C6 as frozen: `page=` followed by the digit run
`9223372036854775808` (2^63, which overflows `strconv.Atoi` on a 64-bit
platform) returns the sentinel `-1`, not the integer the digits denote. -/
theorem extract_page_number_overflow_counterexample :
    extractPageNumber "page=9223372036854775808" ≠ 9223372036854775808 ∧
    extractPageNumber "page=9223372036854775808" = -1 := by
  constructor
  · decide
  · decide

/-- C7: `getPageCount` returns the integer parsed from the trimmed text of
the `.pageTotal` element; it returns 1 when the element is absent, its
text is unreadable, or the parse fails; and a page whose total reads 3
makes main enqueue exactly the three page tasks `&page=1`, `&page=2`,
`&page=3`, in that order. -/
theorem page_count_and_enqueued_tasks :
    (∀ (page : Page) (el : DomNode) (t : String) (n : Int),
        page.findOne ".pageTotal" = some el → el.text = some t →
        atoi (trimSpace t) = some n → getPageCount page = n) ∧
    (∀ page : Page, page.findOne ".pageTotal" = none → getPageCount page = 1) ∧
    (∀ (page : Page) (el : DomNode),
        page.findOne ".pageTotal" = some el →
        (el.text = none ∨ ∃ t, el.text = some t ∧ atoi (trimSpace t) = none) →
        getPageCount page = 1) ∧
    (∀ (page : Page) (el : DomNode) (t : String),
        page.findOne ".pageTotal" = some el → el.text = some t →
        atoi (trimSpace t) = some 3 →
        ∀ category : String,
          pageTasks category (getPageCount page) =
            [category ++ "&page=1", category ++ "&page=2", category ++ "&page=3"]) := by
  have hcount : ∀ (page : Page) (el : DomNode) (t : String) (n : Int),
      page.findOne ".pageTotal" = some el → el.text = some t →
      atoi (trimSpace t) = some n → getPageCount page = n := by
    intro page el t n h1 h2 h3
    simp [getPageCount, h1, h2, h3]
  refine ⟨hcount, ?_, ?_, ?_⟩
  · intro page h1
    simp [getPageCount, h1]
  · intro page el h1 h2
    rcases h2 with h2 | ⟨t, h2, h3⟩
    · simp [getPageCount, h1, h2]
    · simp [getPageCount, h1, h2, h3]
  · intro page el t h1 h2 h3 category
    rw [hcount page el t 3 h1 h2 h3]
    simp only [pageTasks, String.append_assoc]
    rfl

/-- Witness for C7: a `.pageTotal` element reading `" 3 "` gives page
count 3 and the three enqueued page-task URLs; the empty page gives 1. -/
theorem page_count_and_enqueued_tasks_witness :
    getPageCount fxPageTotal = 3 ∧
    getPageCount emptyPage = 1 ∧
    pageTasks "https://shop.adidas.jp/c" (getPageCount fxPageTotal) =
      ["https://shop.adidas.jp/c&page=1", "https://shop.adidas.jp/c&page=2",
       "https://shop.adidas.jp/c&page=3"] :=
  ⟨page_count_and_enqueued_tasks.1 fxPageTotal (textLeafNode " 3 ") " 3 " 3 rfl rfl (by decide),
   page_count_and_enqueued_tasks.2.1 emptyPage rfl,
   page_count_and_enqueued_tasks.2.2.2 fxPageTotal (textLeafNode " 3 ") " 3 "
     rfl rfl (by decide) "https://shop.adidas.jp/c"⟩

/-- The special-description loop emits one entry per element. -/
theorem specialDescLoop_length (elems : List DomNode) :
    ∀ cur, (specialDescLoop cur elems).length = elems.length := by
  induction elems with
  | nil => intro cur; rfl
  | cons c cs ih =>
    intro cur
    simp [specialDescLoop, ih]

/-- Entry `k` of the loop output is the most recent capture among the
elements up to `k`, or the carried value when none of them captured. -/
theorem specialDescLoop_getElem (elems : List DomNode) :
    ∀ (cur : SpecialDescription) (k : Nat), k < elems.length →
      (specialDescLoop cur elems)[k]? =
        some (((elems.take (k + 1)).filterMap captureOf).getLastD cur) := by
  induction elems with
  | nil => intro cur k hk; simp at hk
  | cons c cs ih =>
    intro cur k hk
    match k with
    | 0 =>
      cases hcap : captureOf c <;>
        simp [specialDescLoop, hcap]
    | k' + 1 =>
      have hk' : k' < cs.length := by simpa using hk
      have hstep : specialDescLoop cur (c :: cs)
          = ((captureOf c).getD cur) :: specialDescLoop ((captureOf c).getD cur) cs := rfl
      cases hcap : captureOf c with
      | none =>
        rw [hstep, hcap, Option.getD_none, List.getElem?_cons_succ, ih cur k' hk']
        congr 1
        rw [List.take_succ_cons]
        simp only [List.filterMap_cons, hcap]
      | some v =>
        rw [hstep, hcap, Option.getD_some, List.getElem?_cons_succ, ih v k' hk']
        congr 1
        rw [List.take_succ_cons]
        simp only [List.filterMap_cons, hcap]
        rw [List.getLastD_cons]

/-- C10: every matched `.contents .content` element appends exactly one
entry, and — because the entry variable lives outside the loop — an
element without a fresh capture (child lookup failed, or empty title text
or image alt) appends a duplicate of the most recently captured pair,
the zero-value pair when no earlier element captured. -/
theorem special_description_duplicate_entries :
    ∀ (page : Page) (elems : List DomNode) (p : Product),
      page.findAll ".contents .content" = some elems →
      (specialDescSection page p).SpecialDescription.length = elems.length ∧
      ∀ k, k < elems.length →
        (specialDescSection page p).SpecialDescription[k]? =
          some (((elems.take (k + 1)).filterMap captureOf).getLastD
            { Title := "", Description := "" }) := by
  intro page elems p h
  constructor
  · simp [specialDescSection, h, specialDescLoop_length]
  · intro k hk
    simp only [specialDescSection, h]
    exact specialDescLoop_getElem elems { Title := "", Description := "" } k hk

/-- Witness for C10: on a page whose second `.content` element has no
sub-elements, the second entry duplicates the first capture `{T, D}`. -/
theorem special_description_duplicate_entries_witness :
    (specialDescSection fxContentPage emptyProduct).SpecialDescription.length = 2 ∧
    (specialDescSection fxContentPage emptyProduct).SpecialDescription[1]? =
      some { Title := "T", Description := "D" } := by
  obtain ⟨hlen, hidx⟩ :=
    special_description_duplicate_entries fxContentPage [fxContentGood, fxContentBad]
      emptyProduct rfl
  refine ⟨by simpa using hlen, ?_⟩
  rw [hidx 1 (by decide)]
  rfl

/-- A card whose image child exists is processed without aborting. -/
theorem coordOf_ok_of_img (card : DomNode)
    (h : (card.child ".coordinate_image img").isSome) :
    ∃ c, coordOf card = .ok c := by
  obtain ⟨img, himg⟩ := Option.isSome_iff_exists.mp h
  exact ⟨_, by rw [coordOf, himg]⟩

/-- A list of cards with image children maps to one entry per card. -/
theorem mapOrAbort_coordOf_ok :
    ∀ (cards : List DomNode),
      (∀ card ∈ cards, (card.child ".coordinate_image img").isSome) →
      ∃ cs, mapOrAbort coordOf cards = .ok cs ∧ cs.length = cards.length := by
  intro cards
  induction cards with
  | nil => intro _; exact ⟨[], rfl, rfl⟩
  | cons card rest ih =>
    intro hall
    obtain ⟨c, hc⟩ := coordOf_ok_of_img card (hall card (by simp))
    obtain ⟨cs, hcs, hlen⟩ := ih (fun x hx => hall x (by simp [hx]))
    exact ⟨c :: cs, by simp only [mapOrAbort, hc, hcs], by simp [hlen]⟩

/-- C8: with the card's image child present and its `src` attribute
readable as `s`, the card yields exactly one entry whose `productNumber`
is segment index 3 of `s` split on `/` when that split has more than
three segments and the empty string otherwise, and whose `productURL` is
always the products-base URL plus that number; a list of such cards
contributes one entry each (the short path is not an error). -/
theorem coordinated_product_number_segment :
    (∀ (card : DomNode) (img : DomLeaf) (s : String),
        card.child ".coordinate_image img" = some img →
        img.attr "src" = some s →
        ∃ c, coordOf card = .ok c ∧
          c.ProductURL = "https://shop.adidas.jp/products/" ++ c.ProductNumber ∧
          (∀ s0 s1 s2 s3 rest, goSplit '/' s = s0 :: s1 :: s2 :: s3 :: rest →
              c.ProductNumber = s3) ∧
          ((goSplit '/' s).length ≤ 3 → c.ProductNumber = "")) ∧
    (∀ (page : Page) (cards : List DomNode) (p : Product),
        page.findAll ".coordinateItems .carouselListitem" = some cards →
        (∀ card ∈ cards, (card.child ".coordinate_image img").isSome) →
        ∃ q, coordSection page p = .ok q ∧
          q.CoordinatedProducts.length = cards.length) := by
  constructor
  · intro card img s himg hsrc
    refine ⟨_, by rw [coordOf, himg], ?_, ?_, ?_⟩
    · rfl
    · intro s0 s1 s2 s3 rest hsplit
      show (let srcRes := img.attr "src"; _ : CoordinatedProduct).ProductNumber = s3
      simp only [coordOf, hsrc, Option.getD_some, hsplit]
      have hlen : (s0 :: s1 :: s2 :: s3 :: rest).length > 3 := by simp
      simp [hlen]
    · intro hle
      show (let srcRes := img.attr "src"; _ : CoordinatedProduct).ProductNumber = ""
      simp only [coordOf, hsrc, Option.getD_some]
      have : ¬ (goSplit '/' s).length > 3 := by omega
      simp [this]
  · intro page cards p hfind hall
    obtain ⟨cs, hcs, hlen⟩ := mapOrAbort_coordOf_ok cards hall
    refine ⟨{ p with CoordinatedProducts := cs }, ?_, by simpa using hlen⟩
    simp only [coordSection, hfind, hcs]

/-- Witness for C8: a card with the four-segment src `/a/b/c/d` yields
`productNumber = "c"` and `productURL = .../products/c`, and its page
contributes exactly one coordinated entry. -/
theorem coordinated_product_number_segment_witness :
    (∃ c, coordOf fxCoordCard = .ok c ∧ c.ProductNumber = "c" ∧
        c.ProductURL = "https://shop.adidas.jp/products/c") ∧
    (∃ q, coordSection fxCoordPage emptyProduct = .ok q ∧
        q.CoordinatedProducts.length = 1) := by
  constructor
  · obtain ⟨c, hc, hurl, hseg, -⟩ :=
      coordinated_product_number_segment.1 fxCoordCard fxCoordImg "/a/b/c/d" rfl rfl
    have hnum : c.ProductNumber = "c" := hseg "" "a" "b" "c" ["d"] (by decide)
    refine ⟨c, hc, hnum, ?_⟩
    rw [hurl, hnum]
    decide
  · exact coordinated_product_number_segment.2 fxCoordPage [fxCoordCard] emptyProduct rfl
      (fun card hcard => by
        rw [List.mem_singleton] at hcard
        subst hcard
        rfl)

/-- C4: when the rating image is present with a non-empty `title`
attribute whose split on `/` has a second segment, the stored
`Review.Rating` is the float parse (default 0) of that trimmed second
segment — the denominator; in particular `"4.5/5"` stores `5`, not
`4.5`. -/
theorem review_rating_takes_denominator :
    (∀ (rev : DomNode) (el : DomLeaf) (t : String) (seg : List Char),
        rev.child reviewRatingImgSel = some el →
        el.attr "title" = some t →
        t ≠ "" →
        (goSplitCh '/' t.data)[1]? = some seg →
        ∃ r, reviewOf rev = .ok r ∧
          r.Rating = (parseFloat (String.mk (trimChar ' ' seg))).getD 0) ∧
    (∀ (rev : DomNode) (el : DomLeaf),
        rev.child reviewRatingImgSel = some el →
        el.attr "title" = some "4.5/5" →
        ∃ r, reviewOf rev = .ok r ∧ r.Rating = 5 ∧ r.Rating ≠ 4.5) := by
  have key : ∀ (rev : DomNode) (el : DomLeaf) (t : String) (seg : List Char),
      rev.child reviewRatingImgSel = some el →
      el.attr "title" = some t →
      t ≠ "" →
      (goSplitCh '/' t.data)[1]? = some seg →
      ∃ r, reviewOf rev = .ok r ∧
        r.Rating = (parseFloat (String.mk (trimChar ' ' seg))).getD 0 := by
    intro rev el t seg hel ht hne hseg
    have hrate : reviewRatingOf rev = .ok ((parseFloat (String.mk (trimChar ' ' seg))).getD 0) := by
      simp [reviewRatingOf, hel, ht, hseg, hne]
    refine ⟨{ Rating := (parseFloat (String.mk (trimChar ' ' seg))).getD 0
            , Title := childTextOrEmpty rev ".BVRRReviewTitleContainer .BVRRReviewTitle"
            , Description := childTextOrEmpty rev ".BVRRReviewTextContainer .BVRRReviewText"
            , Date := childAttrOrEmpty rev ".BVRRReviewDateContainer meta" "content"
            , ReviewId := childTextOrEmpty rev
                ".BVRRUserNicknameContainer .BVRRUserNickname .BVRRNickname" }, ?_, rfl⟩
    simp only [reviewOf, hrate]
  refine ⟨key, ?_⟩
  intro rev el hel ht
  obtain ⟨r, hr, hrat⟩ := key rev el "4.5/5" ['5'] hel ht (by decide) (by decide)
  have h5 : (parseFloat (String.mk (trimChar ' ' ['5']))).getD 0 = (5 : ℚ) := by decide
  refine ⟨r, hr, ?_, ?_⟩
  · rw [hrat, h5]
  · rw [hrat, h5]
    norm_num

/-- Witness for C4 at a concrete review block with title `"4.5/5"`. -/
theorem review_rating_takes_denominator_witness :
    ∃ r, reviewOf fxRatedReview = .ok r ∧ r.Rating = 5 :=
  match review_rating_takes_denominator.2 fxRatedReview fxRatingImg rfl rfl with
  | ⟨r, hr, h5, _⟩ => ⟨r, hr, h5⟩

/-- C3 is a code bug: the review loop indexes `ratingText[1]` without
checking that the split produced a second segment, so a non-empty rating
`title` containing no `/` (here `"foo"`) panics — aborting the remaining
sub-fields, the remaining reviews and the whole record — where the
specification requires the rating sub-field to default to zero and
extraction to continue.  Sub-fields do default independently when the
elements are simply absent (second conjunct). -/
theorem review_rating_no_slash_aborts :
    reviewOf fxNoSlashReview = .error Abort.panicked ∧
    scrapeProduct fxNoSlashPage "u" = .error Abort.panicked ∧
    reviewOf fxPlainReview =
      .ok { Rating := 0, Title := "", Description := "", Date := "", ReviewId := "" } :=
  ⟨rfl, rfl, rfl⟩

/-- A pool whose first worker aborts aborts the run. -/
theorem runPool_cons_error {o : Except Abort α} {os : List (Except Abort α)}
    {a : Abort} (h : o = .error a) : runPool (o :: os) = .error a := by
  subst h; rfl

/-- A pool whose first worker succeeds fails exactly when the rest
fails. -/
theorem runPool_cons_ok_error {o : Except Abort α} {x : α}
    {os : List (Except Abort α)} {a : Abort}
    (h1 : o = .ok x) (h2 : runPool os = .error a) :
    runPool (o :: os) = .error a := by
  subst h1
  show (match runPool os with
    | Except.error a => (Except.error a : Except Abort (List α))
    | Except.ok bs => Except.ok (x :: bs)) = Except.error a
  rw [h2]

/-- A pool of succeeding workers collects all their results. -/
theorem runPool_cons_ok_ok {o : Except Abort α} {x : α}
    {os : List (Except Abort α)} {xs : List α}
    (h1 : o = .ok x) (h2 : runPool os = .ok xs) :
    runPool (o :: os) = .ok (x :: xs) := by
  subst h1
  show (match runPool os with
    | Except.error a => (Except.error a : Except Abort (List α))
    | Except.ok bs => Except.ok (x :: bs)) = Except.ok (x :: xs)
  rw [h2]

/-- C9: a phase-1 worker whose `selenium.NewRemote` fails is
`log.Fatalf` — fatal to the whole run — while a phase-2 worker with the
same failure logs and returns with no insertions; a phase-1 pool
containing such a worker aborts the process, while a phase-2 pool whose
live workers complete still completes, the dead workers contributing
nothing. -/
theorem worker_session_failure_asymmetry :
    (∀ tasks : List String, processURLs none tasks = .error Abort.fatalErr) ∧
    (∀ tasks : List String, processProduct none tasks = .ok []) ∧
    (∀ ws : List (Option RenderSession × List String),
        (∃ w ∈ ws, w.1 = none) →
        runPool (ws.map (fun w => processURLs w.1 w.2)) = .error Abort.fatalErr) ∧
    (∀ ws : List (Option RenderSession × List String),
        (∀ w ∈ ws, ∀ s, w.1 = some s → ∃ v, processProduct w.1 w.2 = .ok v) →
        ∃ vs, runPool (ws.map (fun w => processProduct w.1 w.2)) = .ok vs) := by
  refine ⟨fun _ => rfl, fun _ => rfl, ?_, ?_⟩
  · intro ws
    induction ws with
    | nil => rintro ⟨w, hw, -⟩; simp at hw
    | cons w rest ih =>
      rintro ⟨w0, hw0, hnone⟩
      rw [List.map_cons]
      rcases List.mem_cons.mp hw0 with rfl | hmem
      · exact runPool_cons_error (by show processURLs w0.1 w0.2 = _; rw [hnone]; rfl)
      · cases hw : w.1 with
        | none => exact runPool_cons_error rfl
        | some s => exact runPool_cons_ok_error rfl (ih ⟨w0, hmem, hnone⟩)
  · intro ws
    induction ws with
    | nil => intro _; exact ⟨[], rfl⟩
    | cons w rest ih =>
      intro hall
      obtain ⟨vs, hvs⟩ := ih (fun x hx => hall x (by simp [hx]))
      rw [List.map_cons]
      cases hw : w.1 with
      | none => exact ⟨[] :: vs, runPool_cons_ok_ok rfl hvs⟩
      | some s =>
        obtain ⟨v, hv⟩ := hall w (by simp) s hw
        rw [hw] at hv
        exact ⟨v :: vs, runPool_cons_ok_ok hv hvs⟩

/-- Witness for C9: a two-worker pool where the first session fails. -/
theorem worker_session_failure_asymmetry_witness :
    processURLs none ["u"] = .error Abort.fatalErr ∧
    processProduct none ["u"] = .ok [] ∧
    runPool ([((none : Option RenderSession), ["u"]), (some fxSession, ["v"])].map
      (fun w => processURLs w.1 w.2)) = .error Abort.fatalErr ∧
    ∃ vs, runPool ([((none : Option RenderSession), ["u"]), (some fxSession, ["v"])].map
      (fun w => processProduct w.1 w.2)) = .ok vs :=
  ⟨worker_session_failure_asymmetry.1 ["u"],
   worker_session_failure_asymmetry.2.1 ["u"],
   worker_session_failure_asymmetry.2.2.1 _ ⟨(none, ["u"]), by simp, rfl⟩,
   worker_session_failure_asymmetry.2.2.2 _ (by
      rintro w hw s hs
      rcases List.mem_cons.mp hw with rfl | hw2
      · cases hs
      · rcases List.mem_cons.mp hw2 with rfl | hw3
        · exact ⟨_, rfl⟩
        · simp at hw3)⟩

/-- Taking one past a `set` index splits the list at the written slot. -/
theorem take_succ_set {α : Type} :
    ∀ (l : List α) (j : Nat) (v : α), j < l.length →
      (l.set j v).take (j + 1) = l.take j ++ [v] := by
  intro l
  induction l with
  | nil => intro j v h; simp at h
  | cons a l ih =>
    intro j v h
    cases j with
    | zero => simp
    | succ j' =>
      simp only [List.set_cons_succ, List.take_succ_cons, List.cons_append]
      rw [ih j' v (by simpa using h)]

/-- The cell loop fills consecutive slots with the zipped
`rowKey → cellText` singletons. -/
theorem fillColumn_spec (sizeKeys : List String) :
    ∀ (elems : List DomNode) (cells : List String) (j : Nat) (arr : List SizeRow),
      elems.map DomNode.text = cells.map some →
      arr.length = sizeKeys.length →
      j + cells.length = sizeKeys.length →
      fillColumn sizeKeys arr j elems =
        .ok (arr.take j ++
          List.zipWith (fun k c => [(k, c)]) (sizeKeys.drop j) cells) := by
  intro elems
  induction elems with
  | nil =>
    intro cells j arr hmap hlen hj
    have hc : cells = [] := by cases cells <;> simp_all
    subst hc
    simp only [List.length_nil, Nat.add_zero] at hj
    rw [fillColumn]
    rw [List.zipWith_nil_right, List.append_nil, List.take_of_length_le (by omega)]
  | cons e es ih =>
    intro cells j arr hmap hlen hj
    cases cells with
    | nil => simp at hmap
    | cons c cs =>
      rw [List.map_cons, List.map_cons] at hmap
      obtain ⟨het, hrest⟩ := List.cons.inj hmap
      have hjlt : j < sizeKeys.length := by
        simp only [List.length_cons] at hj
        omega
      have hkj := List.getElem?_eq_getElem (l := sizeKeys) (n := j) hjlt
      simp only [fillColumn, het, hkj]
      rw [ih cs (j + 1) (arr.set j [(sizeKeys[j], c)]) hrest (by simpa using hlen)
        (by simp only [List.length_cons] at hj; omega)]
      congr 1
      rw [take_succ_set arr j _ (by omega),
        List.drop_eq_getElem_cons hjlt, List.zipWith_cons_cons, List.append_assoc]
      rfl

/-- Inserting a fresh key into the Go map appends the binding. -/
theorem mapUpsert_not_mem (m : SizeChartMap) (k : String) (v : List SizeRow)
    (h : ∀ pr ∈ m, pr.1 ≠ k) : mapUpsert m k v = m ++ [(k, v)] := by
  have hany : m.any (fun p => p.1 = k) = false := by
    rw [List.any_eq_false]
    intro pr hpr
    simpa using h pr hpr
  rw [mapUpsert, hany]
  simp

/-- The per-header loop produces one binding per header, in order, each
holding the zip of the size keys with that header's column cells. -/
theorem buildSizeChart_spec (page : Page) (sizeKeys : List String)
    (colCells : Nat → List String) :
    ∀ (hs : List String) (i0 : Nat) (m : SizeChartMap),
      (∀ j, j < hs.length → ∃ rowElems,
          page.findAll (rowSel (i0 + j + 2)) = some rowElems ∧
          rowElems.map DomNode.text = (colCells (i0 + j)).map some ∧
          (colCells (i0 + j)).length = sizeKeys.length) →
      hs.Nodup →
      (∀ h ∈ hs, ∀ pr ∈ m, pr.1 ≠ h) →
      buildSizeChart page sizeKeys i0 hs m =
        .ok (m ++ chartOf sizeKeys colCells i0 hs) := by
  intro hs
  induction hs with
  | nil => intro i0 m _ _ _; simp [buildSizeChart, chartOf]
  | cons h hs' ih =>
    intro i0 m hcols hnodup hdisj
    obtain ⟨rowElems, hrow, hmap, hclen⟩ := hcols 0 (by simp)
    rw [Nat.add_zero] at hrow hmap hclen
    have hfill := fillColumn_spec sizeKeys rowElems (colCells i0) 0
      (List.replicate sizeKeys.length []) hmap (by simp) (by simpa using hclen)
    rw [List.take_zero, List.drop_zero, List.nil_append] at hfill
    have hup : mapUpsert m h
        (List.zipWith (fun k c => [(k, c)]) sizeKeys (colCells i0))
        = m ++ [(h, List.zipWith (fun k c => [(k, c)]) sizeKeys (colCells i0))] :=
      mapUpsert_not_mem m h _ (fun pr hpr => (hdisj h (by simp) pr hpr).symm ∘ Eq.symm)
    simp only [buildSizeChart, hrow, hfill, hup]
    rw [ih (i0 + 1) (m ++ [(h, _)])
      (fun j hj => by
        obtain ⟨re, h1, h2, h3⟩ := hcols (j + 1) (by simpa using Nat.succ_lt_succ hj)
        rw [show i0 + (j + 1) = i0 + 1 + j by omega] at h1 h2 h3
        exact ⟨re, h1, h2, h3⟩)
      (List.nodup_cons.mp hnodup).2
      (fun h' hh' pr hpr => by
        rcases List.mem_append.mp hpr with hm | hone
        · exact hdisj h' (by simp [hh']) pr hm
        · rw [List.mem_singleton.mp hone]
          have : h ≠ h' := fun he => (List.nodup_cons.mp hnodup).1 (he ▸ hh')
          simpa using this)]
    rw [List.append_assoc]
    rfl

/-- The chart's keys are exactly the headers it was built from. -/
theorem chartOf_keys (sizeKeys : List String) (colCells : Nat → List String) :
    ∀ (hs : List String) (i : Nat),
      (chartOf sizeKeys colCells i hs).map Prod.fst = hs := by
  intro hs
  induction hs with
  | nil => intro i; rfl
  | cons h hs' ih => intro i; simp [chartOf, ih]

/-- Every column stored in the chart has one row per size key, provided
each column's cell count equals the key count. -/
theorem chartOf_row_lengths (sizeKeys : List String) (colCells : Nat → List String) :
    ∀ (hs : List String) (i : Nat),
      (∀ j, i ≤ j → j < i + hs.length → (colCells j).length = sizeKeys.length) →
      ∀ pr ∈ chartOf sizeKeys colCells i hs, pr.2.length = sizeKeys.length := by
  intro hs
  induction hs with
  | nil => intro i _ pr hpr; simp [chartOf] at hpr
  | cons h hs' ih =>
    intro i hlen pr hpr
    rcases List.mem_cons.mp hpr with rfl | hmem
    · have := hlen i le_rfl (by simp)
      simp [List.length_zipWith, this]
    · exact ih (i + 1) (fun j h1 h2 => hlen j (by omega) (by simp at h2 ⊢; omega)) pr hmem

/-- C2 (amended: the non-empty column headers must additionally be
pairwise distinct — the Go map collapses duplicate header keys): for a
completed size-chart run whose N non-empty headers are distinct, with M
size keys from the first body row and exactly M cells in each column's
query, the chart binds exactly the N headers, in order, each to the
length-M sequence whose entry j is the singleton `sizeKeys[j] →
cellText[column][j]` (the `chartOf` zip). -/
theorem size_chart_assembly_distinct_headers :
    ∀ (page : Page) (p : Product) (headerElems keyElems : List DomNode)
      (headerTexts sizeKeys headers : List String) (colCells : Nat → List String),
      page.findAll headerSel = some headerElems →
      collectTextsFatal headerElems = .ok headerTexts →
      headerTexts.filter (fun t => t ≠ "") = headers →
      page.findAll (rowSel 1) = some keyElems →
      collectTextsFatal keyElems = .ok sizeKeys →
      headers.Nodup →
      (∀ j, j < headers.length → ∃ rowElems,
          page.findAll (rowSel (j + 2)) = some rowElems ∧
          rowElems.map DomNode.text = (colCells j).map some ∧
          (colCells j).length = sizeKeys.length) →
      ∃ q, sizeChartSection page p = .ok q ∧
        q.SizeChart = chartOf sizeKeys colCells 0 headers ∧
        q.SizeChart.map Prod.fst = headers ∧
        q.SizeChart.length = headers.length ∧
        ∀ pr ∈ q.SizeChart, pr.2.length = sizeKeys.length := by
  intro page p headerElems keyElems headerTexts sizeKeys headers colCells
    hH hHT hF hK hKT hnodup hcols
  have hbuild := buildSizeChart_spec page sizeKeys colCells headers 0 []
    (fun j hj => by rw [Nat.zero_add]; exact hcols j hj)
    hnodup
    (fun h hh pr hpr => by simp at hpr)
  rw [List.nil_append] at hbuild
  refine ⟨{ p with SizeChart := chartOf sizeKeys colCells 0 headers }, ?_, rfl, ?_, ?_, ?_⟩
  · simp only [sizeChartSection, hH, hHT, hK, hKT, hF, hbuild]
  · exact chartOf_keys sizeKeys colCells headers 0
  · have := congrArg List.length (chartOf_keys sizeKeys colCells headers 0)
    simpa using this
  · exact chartOf_row_lengths sizeKeys colCells headers 0
      (fun j _ h2 => by
        obtain ⟨re, -, -, h3⟩ := hcols j (by simpa using h2)
        exact h3)

/-- Witness for C2 at a concrete two-header, two-key chart. -/
theorem size_chart_assembly_distinct_headers_witness :
    ∃ q, sizeChartSection fxChartPage emptyProduct = .ok q ∧
      q.SizeChart =
        [("A", [[("k1", "a1")], [("k2", "a2")]]),
         ("B", [[("k1", "b1")], [("k2", "b2")]])] := by
  obtain ⟨q, hq, hchart, -, -, -⟩ :=
    size_chart_assembly_distinct_headers fxChartPage emptyProduct
      [textLeafNode "A", textLeafNode "B"] [textLeafNode "k1", textLeafNode "k2"]
      ["A", "B"] ["k1", "k2"] ["A", "B"]
      (fun j => if j = 0 then ["a1", "a2"] else ["b1", "b2"])
      rfl rfl (by decide) rfl rfl (by decide)
      (fun j hj => by
        have hj2 : j < 2 := by simpa using hj
        interval_cases j
        · exact ⟨[textLeafNode "a1", textLeafNode "a2"], rfl, rfl, rfl⟩
        · exact ⟨[textLeafNode "b1", textLeafNode "b2"], rfl, rfl, rfl⟩)
  exact ⟨q, hq, by rw [hchart]; rfl⟩

/-- Counterexample to C2 as frozen: a completed run with N = 2 non-empty
column headers (both reading `A`), M = 1 size key and one cell per column
query finishes with a `sizeChart` of a single key — the duplicate header
keys collapse in the Go map, the surviving binding holding the last
column's cells — not the claimed N = 2 keys. -/
theorem size_chart_duplicate_header_counterexample :
    fxChartDupPage.findAll headerSel = some [textLeafNode "A", textLeafNode "A"] ∧
    (∃ q, sizeChartSection fxChartDupPage emptyProduct = .ok q ∧
        q.SizeChart = [("A", [[("k", "c1")]])] ∧
        q.SizeChart.length ≠ 2) := by
  exact ⟨rfl, ⟨_, rfl, rfl, by decide⟩⟩

/-- Splitting an `Except` bind that succeeded. -/
theorem except_bind_ok {α β : Type} {x : Except Abort α} {f : α → Except Abort β}
    {b : β} (h : x >>= f = .ok b) : ∃ a, x = .ok a ∧ f a = .ok b := by
  cases x with
  | error e => simp [Bind.bind, Except.bind] at h
  | ok a => exact ⟨a, rfl, by simpa [Bind.bind, Except.bind] using h⟩

/-- A single-text section never touches `ProductURL`. -/
theorem textSection_url (page : Page) (sel : String)
    (store : Product → String → Product) (p : Product)
    (hstore : ∀ q t, (store q t).ProductURL = q.ProductURL) :
    (textSection page sel store p).ProductURL = p.ProductURL := by
  unfold textSection
  split
  · rfl
  · split
    · rfl
    · exact hstore p _

theorem breadcrumbSection_url (page : Page) (p : Product) :
    (breadcrumbSection page p).ProductURL = p.ProductURL := by
  unfold breadcrumbSection
  cases page.findAll ".breadcrumbListItem a" <;> rfl

theorem categorySection_url (page : Page) (p : Product) :
    (categorySection page p).ProductURL = p.ProductURL :=
  textSection_url page _ _ p (fun _ _ => rfl)

theorem titleSection_url (page : Page) (p : Product) :
    (titleSection page p).ProductURL = p.ProductURL :=
  textSection_url page _ _ p (fun _ _ => rfl)

theorem priceSection_url (page : Page) (p : Product) :
    (priceSection page p).ProductURL = p.ProductURL :=
  textSection_url page _ _ p (fun _ _ => rfl)

theorem colorSection_url (page : Page) (p q : Product)
    (h : colorSection page p = .ok q) : q.ProductURL = p.ProductURL := by
  unfold colorSection at h
  split at h
  · cases h
  · cases h; rfl

theorem sizeSection_url (page : Page) (p q : Product)
    (h : sizeSection page p = .ok q) : q.ProductURL = p.ProductURL := by
  unfold sizeSection at h
  split at h
  · cases h
  · cases h; rfl

theorem imageSection_url (page : Page) (p q : Product)
    (h : imageSection page p = .ok q) : q.ProductURL = p.ProductURL := by
  unfold imageSection at h
  split at h
  · cases h
  · split at h
    · cases h
    · cases h; rfl

theorem videoSection_url (page : Page) (p q : Product)
    (h : videoSection page p = .ok q) : q.ProductURL = p.ProductURL := by
  unfold videoSection at h
  split at h
  · cases h
  · split at h
    · cases h
    · cases h; rfl

theorem coordSection_url (page : Page) (p q : Product)
    (h : coordSection page p = .ok q) : q.ProductURL = p.ProductURL := by
  unfold coordSection at h
  split at h
  · cases h; rfl
  · split at h
    · cases h
    · cases h; rfl

theorem descriptionSection_url (page : Page) (p : Product) :
    (descriptionSection page p).ProductURL = p.ProductURL := by
  have h3 : ∀ q : Product, (textSection page descriptionBodySel
      (fun q t => { q with Description := t })
      (textSection page ".heading.itemFeature.test-commentItem-subheading"
        (fun q t => { q with DescriptionTitle := t })
        (textSection page ".heading.itemName.test-commentItem-topHeading"
          (fun q t => { q with DescriptionHeading := t }) q))).ProductURL = q.ProductURL := by
    intro q
    rw [textSection_url page descriptionBodySel
        (fun q t => { q with Description := t }) _ (fun _ _ => rfl),
      textSection_url page ".heading.itemFeature.test-commentItem-subheading"
        (fun q t => { q with DescriptionTitle := t }) _ (fun _ _ => rfl),
      textSection_url page ".heading.itemName.test-commentItem-topHeading"
        (fun q t => { q with DescriptionHeading := t }) _ (fun _ _ => rfl)]
  unfold descriptionSection
  split
  · exact h3 p
  · exact h3 p

theorem specialDescSection_url (page : Page) (p : Product) :
    (specialDescSection page p).ProductURL = p.ProductURL := by
  unfold specialDescSection
  cases page.findAll ".contents .content" <;> rfl

theorem sizeChartSection_url (page : Page) (p q : Product)
    (h : sizeChartSection page p = .ok q) : q.ProductURL = p.ProductURL := by
  unfold sizeChartSection at h
  split at h
  · cases h
  · split at h
    · cases h
    · split at h
      · cases h
      · split at h
        · cases h
        · split at h
          · cases h
          · cases h; rfl

theorem sizeRemarkSection_url (page : Page) (p : Product) :
    (sizeRemarkSection page p).ProductURL = p.ProductURL := by
  unfold sizeRemarkSection
  cases page.findAll ".remarkList.test-remarkList .sizeDescriptionRemark" <;> rfl

theorem reviewSummarySection_url (page : Page) (p : Product) :
    (reviewSummarySection page p).ProductURL = p.ProductURL := rfl

theorem reviewSection_url (page : Page) (p q : Product)
    (h : reviewSection page p = .ok q) : q.ProductURL = p.ProductURL := by
  unfold reviewSection at h
  split at h
  · cases h; rfl
  · split at h
    · cases h
    · cases h; rfl

theorem tagSection_url (page : Page) (p : Product) :
    (tagSection page p).ProductURL = p.ProductURL := by
  unfold tagSection
  cases page.findAll ".itemTagsPosition a" <;> rfl

/-- C1: whenever `scrapeProduct` returns (it does not abort), the returned
record is the non-nil `Product` whose `ProductURL` equals the input URL;
and on the fully empty page — every multi-element query succeeds matching
nothing and every single-element lookup reports not-found, with no session
errors — it returns without error the record with every other field at its
zero value. -/
theorem scrapeProduct_returns_url_record :
    (∀ (page : Page) (url : String) (p : Product),
        scrapeProduct page url = .ok p → p.ProductURL = url) ∧
    (∀ url : String,
        scrapeProduct emptyPage url = .ok { emptyProduct with ProductURL := url }) := by
  constructor
  · intro page url p h
    unfold scrapeProduct at h
    obtain ⟨p1, h1, h⟩ := except_bind_ok h
    obtain ⟨p2, h2, h⟩ := except_bind_ok h
    obtain ⟨p3, h3, h⟩ := except_bind_ok h
    obtain ⟨p4, h4, h⟩ := except_bind_ok h
    obtain ⟨p5, h5, h⟩ := except_bind_ok h
    obtain ⟨p6, h6, h⟩ := except_bind_ok h
    obtain ⟨p7, h7, h⟩ := except_bind_ok h
    have hp : p = tagSection page p7 := by
      simpa [pure, Except.pure] using h.symm
    rw [hp, tagSection_url, reviewSection_url page _ p7 h7, reviewSummarySection_url,
      sizeRemarkSection_url, sizeChartSection_url page _ p6 h6, specialDescSection_url,
      descriptionSection_url, coordSection_url page p4 p5 h5, videoSection_url page p3 p4 h4,
      imageSection_url page p2 p3 h3, sizeSection_url page p1 p2 h2,
      colorSection_url page _ p1 h1, priceSection_url, titleSection_url,
      categorySection_url, breadcrumbSection_url]
  · intro url
    rfl

/-- Witness for C1: the empty page at a concrete URL. -/
theorem scrapeProduct_returns_url_record_witness :
    ∃ p, scrapeProduct emptyPage "https://shop.adidas.jp/products/XYZ" = .ok p ∧
      p.ProductURL = "https://shop.adidas.jp/products/XYZ" :=
  ⟨_, rfl, scrapeProduct_returns_url_record.1 emptyPage
      "https://shop.adidas.jp/products/XYZ" _ rfl⟩

end AdidasCrawl
